import Mathlib

/-!
Verification development for the portfolio-visualization repository.

The repository renders three visualizations:
* `js/volatility-surface.js` — class `VolatilitySurface`: bilinear grid
  interpolation (`interpolateSigma`), a wireframe mesh builder
  (`createSurface`) and a per-frame animation loop (`animate`).
* `js/project-visualizations.js` — classes `BaseViz`, `KalmanViz`,
  `MarkovViz`: one-shot D3 chart renderers.

JavaScript numbers are modelled by `ℚ` (the data and the claims are about
exact arithmetic identities and inequalities, not float rounding).
A JavaScript array read `a[i]` that is out of bounds yields `undefined`,
which either poisons the arithmetic (NaN) or throws on a further member
access; both failure modes are modelled by `Option.none`.  The transcendental
functions `Math.sin` / `Math.cos` and the constant `Math.PI` used by the
animation loop are abstracted as parameters `sinF cosF : ℚ → ℚ`, `piQ : ℚ`;
every theorem about the animation holds for all instantiations.
The d3 library pieces the charts depend on (linear scales, the sequential
`interpolateReds` colour ramp) are modelled in namespace `D3` following the
d3-interpolate / d3-scale-chromatic sources: `interpolateReds` is the uniform
cubic B-spline (`basis`) through the 9-colour Reds scheme, with each channel
rounded and clamped to 0..255 when the rgb string is emitted.
-/

namespace VolatilitySurface

/-- Scale factor `config.scaleX = 12`. -/
def scaleX : ℚ := 12

/-- Scale factor `config.scaleY = 10`. -/
def scaleY : ℚ := 10

/-- Scale factor `config.scaleZ = 20`. -/
def scaleZ : ℚ := 20

/-- Per-frame time increment `config.waveSpeed = 0.0008`. -/
def waveSpeed : ℚ := 0.0008

/-- Wave height `config.waveAmplitude = 0.15`. -/
def waveAmplitude : ℚ := 0.15

/-- Per-frame rotation increment `config.rotation.x = 0.0002`. -/
def rotationX : ℚ := 0.0002

/-- Per-frame rotation increment `config.rotation.y = 0.0003`. -/
def rotationY : ℚ := 0.0003

/-- JavaScript 2-d array read `grid[y][x]`.  A negative index or an index
past the end gives `undefined` (and `grid[y][x]` with `grid[y]` undefined
throws); both are modelled as `none`. -/
def getCell (grid : List (List ℚ)) (y x : ℤ) : Option ℚ :=
  if 0 ≤ y ∧ 0 ≤ x then
    (grid.get? y.toNat).bind fun row => row.get? x.toNat
  else none

/-- `interpolateSigma(u, v, grid, nRows, nCols)`: bilinear interpolation on
the data grid.  Returns `none` exactly when one of the four array reads is
out of bounds (JS: NaN result or TypeError). -/
def interpolateSigma (u v : ℚ) (grid : List (List ℚ)) (nRows nCols : ℕ) : Option ℚ :=
  let gx := u * ((nCols : ℚ) - 1)
  let gy := v * ((nRows : ℚ) - 1)
  let x0 : ℤ := ⌊gx⌋
  let y0 : ℤ := ⌊gy⌋
  let x1 : ℤ := min (x0 + 1) ((nCols : ℤ) - 1)
  let y1 : ℤ := min (y0 + 1) ((nRows : ℤ) - 1)
  let fx : ℚ := gx - (x0 : ℚ)
  let fy : ℚ := gy - (y0 : ℚ)
  match getCell grid y0 x0, getCell grid y0 x1, getCell grid y1 x0, getCell grid y1 x1 with
  | some v00, some v10, some v01, some v11 =>
      some ((1 - fx) * (1 - fy) * v00 + fx * (1 - fy) * v10 +
            (1 - fx) * fy * v01 + fx * fy * v11)
  | _, _, _, _ => none

/-- `interpolateSigma` as a total function, defaulting to `0` on the
out-of-bounds failure case (which never occurs for the mesh builder's
in-range `u, v` over a well-formed grid). -/
def interpolateSigmaD (u v : ℚ) (grid : List (List ℚ)) (nRows nCols : ℕ) : ℚ :=
  (interpolateSigma u v grid nRows nCols).getD 0

/-- The dataset loaded from `data/health-surface-data.json`
(`{ metadata: { title }, surface: { grid } }`). -/
structure SurfaceData where
  title : String
  grid : List (List ℚ)
deriving DecidableEq

/-- `init`: `this.surfaceData` is the parsed JSON on success and `null`
when the fetch (or JSON parse) throws; `createSurface` then reads
`this.surfaceData ? this.surfaceData.surface.grid : null`. -/
def gridOfFetch (fetchResult : Option SurfaceData) : Option (List (List ℚ)) :=
  fetchResult.map SurfaceData.grid

/-- Synthetic fallback height:
`smile = ((u-0.5)*2)^2 * 1.5`, `term = v*0.5`, `z = (smile + term) * 2`. -/
def syntheticZ (u v : ℚ) : ℚ :=
  let smile := ((u - 0.5) * 2) ^ 2 * 1.5
  let tstruct := v * 0.5
  (smile + tstruct) * 2

/-- Per-vertex height in `createSurface`: interpolated data scaled by
`scaleZ` when a grid is present, the synthetic fallback otherwise
(`nRows = grid.length`, `nCols = grid[0].length`). -/
def heightAt (gridOpt : Option (List (List ℚ))) (u v : ℚ) : ℚ :=
  match gridOpt with
  | some grid => interpolateSigmaD u v grid grid.length (grid.headD []).length * scaleZ
  | none => syntheticZ u v

/-- The `baseHeights` array built by `createSurface`:
for `i = 0..gridY`, `j = 0..gridX`, push `z` at `u = j/gridX`, `v = i/gridY`. -/
def buildBaseHeights (gridOpt : Option (List (List ℚ))) (gridX gridY : ℕ) : List ℚ :=
  (List.range (gridY + 1)).flatMap fun (i : ℕ) =>
    (List.range (gridX + 1)).map fun (j : ℕ) =>
      heightAt gridOpt ((j : ℚ) / (gridX : ℚ)) ((i : ℚ) / (gridY : ℚ))

/-- The vertex list built by `createSurface`: each iteration pushes the
triple `(x, z, y)` with `x = (u-0.5)*scaleX`, `y = (v-0.5)*scaleY`. -/
def buildVertices (gridOpt : Option (List (List ℚ))) (gridX gridY : ℕ) :
    List (ℚ × ℚ × ℚ) :=
  (List.range (gridY + 1)).flatMap fun (i : ℕ) =>
    (List.range (gridX + 1)).map fun (j : ℕ) =>
      let u := (j : ℚ) / (gridX : ℚ)
      let v := (i : ℚ) / (gridY : ℚ)
      ((u - 0.5) * scaleX, heightAt gridOpt u v, (v - 0.5) * scaleY)

/-- The flat wireframe index array built by `createSurface`: for every cell
`(i < gridY, j < gridX)` it executes `indices.push(a, b)` and
`indices.push(a, a+1)`, i.e. appends the four entries `a, b, a, a+1`
(two line segments: down neighbour and right neighbour). -/
def buildIndices (gridX gridY : ℕ) : List ℕ :=
  (List.range gridY).flatMap fun i =>
    (List.range gridX).flatMap fun j =>
      let a := i * (gridX + 1) + j
      let b := a + gridX + 1
      [a, b, a, a + 1]

/-- Flat `Float32BufferAttribute(vertices, 3)` position buffer. -/
def positionsOf (verts : List (ℚ × ℚ × ℚ)) : List ℚ :=
  verts.flatMap fun p => [p.1, p.2.1, p.2.2]

/-- The mutable state the animation loop works on: the retained
`baseHeights`, the geometry position buffer, `this.time` and the group
rotation angles. -/
structure SurfaceState where
  baseHeights : List ℚ
  positions : List ℚ
  time : ℚ
  rotX : ℚ
  rotY : ℚ
deriving DecidableEq

/-- State right after `createSurface` (the constructor set `this.time = 0`
and the group starts unrotated). -/
def createSurface (gridOpt : Option (List (List ℚ))) (gridX gridY : ℕ) :
    SurfaceState :=
  { baseHeights := buildBaseHeights gridOpt gridX gridY
    positions := positionsOf (buildVertices gridOpt gridX gridY)
    time := 0
    rotX := 0
    rotY := 0 }

/-- One tick of `animate()`: advance `this.time` by `waveSpeed`, add the
fixed rotation increments, and overwrite `positions[idx*3 + 1]` with
`baseHeights[idx] + sin(u·π·3 + t)·cos(v·π·2 + t·0.7)·waveAmplitude`
for every vertex.  `sinF`, `cosF`, `piQ` abstract `Math.sin`, `Math.cos`
and `Math.PI`. -/
def animate (sinF cosF : ℚ → ℚ) (piQ : ℚ) (gridX gridY : ℕ)
    (s : SurfaceState) : SurfaceState :=
  let t := s.time + waveSpeed
  let positions :=
    (List.range (gridY + 1)).foldl (fun (p : List ℚ) (i : ℕ) =>
      (List.range (gridX + 1)).foldl (fun (p : List ℚ) (j : ℕ) =>
        let idx := i * (gridX + 1) + j
        let posIdx := idx * 3
        let u := (j : ℚ) / (gridX : ℚ)
        let v := (i : ℚ) / (gridY : ℚ)
        let baseZ := s.baseHeights.getD idx 0
        let wave := sinF (u * piQ * 3 + t) * cosF (v * piQ * 2 + t * 0.7) * waveAmplitude
        p.set (posIdx + 1) (baseZ + wave)) p) s.positions
  { baseHeights := s.baseHeights
    positions := positions
    time := t
    rotX := s.rotX + rotationX
    rotY := s.rotY + rotationY }

end VolatilitySurface

namespace D3

/-- `basis(t1, v0, v1, v2, v3)` from d3-interpolate: one segment of the
uniform cubic B-spline. -/
def basis (t1 v0 v1 v2 v3 : ℚ) : ℚ :=
  let t2 := t1 * t1
  let t3 := t2 * t1
  ((1 - 3 * t1 + 3 * t2 - t3) * v0 + (4 - 6 * t2 + 3 * t3) * v1 +
   (1 + 3 * t1 + 3 * t2 - 3 * t3) * v2 + t3 * v3) / 6

/-- Control values `(v0, v1, v2, v3)` selected by d3's `basis(values)`
closure for segment `i` (with reflected phantom points at the two ends). -/
def ctrls (c : List ℚ) (i : ℕ) : ℚ × ℚ × ℚ × ℚ :=
  let n := c.length - 1
  let v1 := c.getD i 0
  let v2 := if i < n then c.getD (i + 1) 0 else 2 * c.getD i 0 - c.getD (i - 1) 0
  let v0 := if 0 < i then c.getD (i - 1) 0 else 2 * c.getD i 0 - c.getD (i + 1) 0
  let v3 := if i + 1 < n then c.getD (i + 2) 0 else 2 * c.getD (i + 1) 0 - c.getD i 0
  (v0, v1, v2, v3)

/-- Segment index chosen by d3's ramp:
`i = t <= 0 ? 0 : t >= 1 ? n - 1 : floor(t * n)`. -/
def iOf (n : ℕ) (t : ℚ) : ℕ :=
  if t ≤ 0 then 0 else if 1 ≤ t then n - 1 else (⌊t * (n : ℚ)⌋).toNat

/-- The clamped parameter (d3 assigns `t = 0` / `t = 1` in the same
conditional). -/
def tcOf (t : ℚ) : ℚ :=
  if t ≤ 0 then 0 else if 1 ≤ t then 1 else t

/-- `basis` evaluated with segment `i`'s controls at local parameter `s`. -/
def seg (c : List ℚ) (i : ℕ) (s : ℚ) : ℚ :=
  basis s (ctrls c i).1 (ctrls c i).2.1 (ctrls c i).2.2.1 (ctrls c i).2.2.2

/-- One colour channel of d3's `interpolateRgbBasis(values)` before
rounding: evaluate the B-spline at
`(t - i/n) * n`. -/
def bspline (c : List ℚ) (t : ℚ) : ℚ :=
  let n := c.length - 1
  let i := iOf n t
  seg c i ((tcOf t - (i : ℚ) / (n : ℚ)) * (n : ℚ))

/-- JavaScript `Math.round`. -/
def jsRound (q : ℚ) : ℤ := ⌊q + 1 / 2⌋

/-- A channel as it appears in the emitted `rgb(r, g, b)` string:
`Math.max(0, Math.min(255, Math.round(channel)))` (d3-color `formatRgb`). -/
def channel (c : List ℚ) (t : ℚ) : ℤ :=
  max 0 (min 255 (jsRound (bspline c t)))

/-- Red channel control points of the 9-colour `schemeReds`
(`fff5f0, fee0d2, fcbba1, fc9272, fb6a4a, ef3a2c, cb181d, a50f15, 67000d`). -/
def redsR : List ℚ := [255, 254, 252, 252, 251, 239, 203, 165, 103]

/-- Green channel control points of the 9-colour `schemeReds`. -/
def redsG : List ℚ := [245, 224, 187, 146, 106, 58, 24, 15, 0]

/-- Blue channel control points of the 9-colour `schemeReds`. -/
def redsB : List ℚ := [240, 210, 161, 114, 74, 44, 29, 21, 13]

/-- `d3.interpolateReds(t)` as the rounded/clamped rgb channel triple. -/
def interpolateReds (t : ℚ) : ℤ × ℤ × ℤ :=
  (channel redsR t, channel redsG t, channel redsB t)

end D3

namespace Viz

/-- `BaseViz` margins and plot size: `width = 300 - 40 - 15`,
`height = 200 - 15 - 25`. -/
def vizWidth : ℚ := 300 - 40 - 15

/-- Inner plot height of `BaseViz`. -/
def vizHeight : ℚ := 200 - 15 - 25

/-- `d3.scaleLinear().domain([d0, d1]).range([r0, r1])` applied to `x`. -/
def linearScale (d0 d1 r0 r1 x : ℚ) : ℚ :=
  r0 + (x - d0) / (d1 - d0) * (r1 - r0)

/-- `d3.max` over a list (d3 returns `undefined` on an empty list; the
charts never call it that way, we default to `0`). -/
def d3max (l : List ℚ) : ℚ := l.foldl max (l.headD 0)

/-- `d3.min`, same convention as `d3max`. -/
def d3min (l : List ℚ) : ℚ := l.foldl min (l.headD 0)

/-- One `{time, value}` sample of the Kalman spread series. -/
structure KalmanPoint where
  time : ℚ
  value : ℚ
deriving DecidableEq

/-- One `{time, value, type}` signal marker. -/
structure KalmanSignal where
  time : ℚ
  value : ℚ
  type : String
deriving DecidableEq

/-- Parsed `data/kalman-data.json`. -/
structure KalmanData where
  spread : List KalmanPoint
  signals : List KalmanSignal
deriving DecidableEq

/-- Parsed `data/markov-data.json`. -/
structure MarkovData where
  transitionMatrix : List (List ℚ)
  states : List String
  stateDistribution : List (String × ℚ)
deriving DecidableEq

/-- A signal marker glyph as emitted by `KalmanViz.render`. -/
structure Marker where
  x : ℚ
  y : ℚ
  symbol : String
  color : String
deriving DecidableEq

/-- The primitives `KalmanViz.render` emits. -/
structure KalmanOut where
  zeroLineY : ℚ
  entryRectShort : ℚ × ℚ × ℚ × ℚ
  entryRectLong : ℚ × ℚ × ℚ × ℚ
  pathPoints : List (ℚ × ℚ)
  markers : List Marker
  xLabel : String
  yLabel : String
  title : String
deriving DecidableEq

/-- `KalmanViz.render`. -/
def kalmanRender (d : KalmanData) : KalmanOut :=
  let xMax := d3max (d.spread.map KalmanPoint.time)
  let yMin := d3min (d.spread.map KalmanPoint.value) - 0.1
  let yMax := d3max (d.spread.map KalmanPoint.value) + 0.1
  let xScale := fun t => linearScale 0 xMax 0 vizWidth t
  let yScale := fun val => linearScale yMin yMax vizHeight 0 val
  { zeroLineY := yScale 0
    entryRectShort := (0, yScale 0.8, vizWidth, yScale 0.5 - yScale 0.8)
    entryRectLong := (0, yScale (-0.5), vizWidth, yScale (-0.5) - yScale (-0.8))
    pathPoints := d.spread.map fun p => (xScale p.time, yScale p.value)
    markers := d.signals.map fun s =>
      { x := xScale s.time
        y := yScale s.value - 8
        symbol := if s.type = "short" then "▼" else if s.type = "long" then "▲" else "×"
        color := if s.type = "short" then "#ff4c4c" else if s.type = "long" then "#4cff4c" else "#ffcc00" }
    xLabel := "Time (days)"
    yLabel := "Spread"
    title := "Kalman Filter Spread Tracking" }

/-- `heatmapHeight = Math.max(this.height * 0.55, 60)`. -/
def heatmapHeight : ℚ := max (vizHeight * 0.55) 60

/-- `barChartHeight = Math.max(this.height * 0.35, 40)`. -/
def barChartHeight : ℚ := max (vizHeight * 0.35) 40

/-- `cellSize = Math.min(this.width / 2.5, heatmapHeight / 2.5)`. -/
def cellSize : ℚ := min (vizWidth / 2.5) (heatmapHeight / 2.5)

/-- The sequential colour scale
`d3.scaleSequential().domain([0, 1]).interpolator(d3.interpolateReds)`. -/
def colorScale (value : ℚ) : ℤ × ℤ × ℤ :=
  D3.interpolateReds ((value - 0) / (1 - 0))

/-- Digit formatting of an integer number of hundredths as `d.dd`. -/
def fmt2 (n : ℤ) : String :=
  (if n < 0 then "-" else "") ++ Nat.repr (n.natAbs / 100) ++ "." ++
    (if n.natAbs % 100 < 10 then "0" else "") ++ Nat.repr (n.natAbs % 100)

/-- JavaScript `value.toFixed(2)`. -/
def toFixed2 (q : ℚ) : String := fmt2 ⌊q * 100 + 1 / 2⌋

/-- Digit formatting of an integer number of tenths as `d.d`. -/
def fmt1 (n : ℤ) : String :=
  (if n < 0 then "-" else "") ++ Nat.repr (n.natAbs / 10) ++ "." ++
    Nat.repr (n.natAbs % 10)

/-- JavaScript `value.toFixed(1)`. -/
def toFixed1 (q : ℚ) : String := fmt1 ⌊q * 10 + 1 / 2⌋

/-- One heatmap cell: the rectangle plus its probability text, as emitted
per matrix entry by `MarkovViz.render`. -/
structure HeatCell where
  x : ℚ
  y : ℚ
  w : ℚ
  h : ℚ
  fill : ℤ × ℤ × ℤ
  label : String
  labelFill : String
deriving DecidableEq

/-- The heatmap cells: `transitionMatrix.forEach((row, i) =>
row.forEach((value, j) => ...))`. -/
def heatCells (m : List (List ℚ)) : List HeatCell :=
  m.enum.flatMap fun rowE =>
    rowE.2.enum.map fun valE =>
      { x := (valE.1 : ℚ) * cellSize + (vizWidth - cellSize * 2) / 2
        y := (rowE.1 : ℚ) * cellSize
        w := cellSize
        h := cellSize
        fill := colorScale valE.2
        label := toFixed2 valE.2
        labelFill := if valE.2 > 0.5 then "#fff" else "#333" }

/-- One bar of the steady-state distribution chart. -/
structure Bar where
  x : ℚ
  y : ℚ
  w : ℚ
  h : ℚ
  fill : String
  opacity : ℚ
deriving DecidableEq

/-- The distribution bars: `stateDistribution.forEach((d, i) => ...)` with
`barHeight = Math.max(0, barScale(d.probability))`, y and width clamped
with `Math.max(0, ...)` likewise. -/
def bars (dist : List (String × ℚ)) : List Bar :=
  let barWidth := vizWidth / (dist.length : ℚ) - 10
  dist.enum.map fun dE =>
    let x := (dE.1 : ℚ) * (barWidth + 10) +
      (vizWidth - (barWidth + 10) * (dist.length : ℚ) + 10) / 2
    let barHeight := max 0 (linearScale 0 1 0 barChartHeight dE.2.2)
    { x := x
      y := max 0 (barChartHeight - barHeight)
      w := max 0 barWidth
      h := barHeight
      fill := if dE.1 = 0 then "#4cff4c" else "#ff4c4c"
      opacity := 0.7 }

/-- The primitives `MarkovViz.render` emits. -/
structure MarkovOut where
  heatCells : List HeatCell
  rowLabels : List String
  colLabels : List String
  heatTitle : String
  bars : List Bar
  pctLabels : List String
  stateLabels : List String
  barTitle : String
deriving DecidableEq

/-- `MarkovViz.render`. -/
def markovRender (d : MarkovData) : MarkovOut :=
  { heatCells := heatCells d.transitionMatrix
    rowLabels := d.states.map fun s => (s.splitOn " ").headD ""
    colLabels := d.states.map fun s => (s.splitOn " ").headD ""
    heatTitle := "Transition Probability Matrix"
    bars := bars d.stateDistribution
    pctLabels := d.stateDistribution.map fun p => toFixed1 (p.2 * 100) ++ "%"
    stateLabels := d.stateDistribution.map fun p => (p.1.splitOn " ").headD ""
    barTitle := "Steady-State Distribution" }

/-- `KalmanViz.init`: `await loadData(...)`; `loadData` catches a failed
fetch and returns `null`; `render` runs only under `if (this.data)`. -/
def kalmanInit (fetchResult : Option KalmanData) : Option KalmanOut :=
  match fetchResult with
  | some d => some (kalmanRender d)
  | none => none

/-- `MarkovViz.init`, same one-shot structure as `KalmanViz.init`. -/
def markovInit (fetchResult : Option MarkovData) : Option MarkovOut :=
  match fetchResult with
  | some d => some (markovRender d)
  | none => none

end Viz

namespace VolatilitySurface

lemma flatMapRange_length {α : Type} (g : ℕ → List α) (n m : ℕ)
    (h : ∀ i, (g i).length = m) :
    ((List.range n).flatMap g).length = n * m := by
  induction n with
  | zero => simp
  | succ n ih =>
    rw [List.range_succ, List.flatMap_append]
    simp [ih, h, Nat.succ_mul]

lemma flatMapRange_get {α : Type} (g : ℕ → List α) (n m i j : ℕ)
    (h : ∀ k, (g k).length = m) (hi : i < n) (hj : j < m) :
    ((List.range n).flatMap g).get? (i * m + j) = (g i).get? j := by
  induction n with
  | zero => omega
  | succ n ih =>
    rw [List.range_succ, List.flatMap_append]
    rcases Nat.lt_succ_iff_lt_or_eq.mp hi with hlt | rfl
    · rw [List.get?_append]
      · exact ih hlt
      · rw [flatMapRange_length g n m h]
        calc i * m + j < i * m + m := by omega
          _ = (i + 1) * m := by ring
          _ ≤ n * m := Nat.mul_le_mul_right m hlt
    · rw [List.get?_append_right (by rw [flatMapRange_length g i m h]; omega)]
      rw [flatMapRange_length g i m h]
      simp [Nat.add_sub_cancel_left]

end VolatilitySurface

namespace VolatilitySurface

/-- C3 (amended): for every render-grid resolution `gridX, gridY ≥ 1` (and
any dataset option), `createSurface` emits exactly `(gx+1)*(gy+1)` vertices
and the same number of base heights, and its flat wireframe index array has
exactly `4*gx*gy` entries — two line segments (four indices) per cell, not
`2*gx*gy` entries as claimed. -/
theorem createSurface_counts (gridOpt : Option (List (List ℚ))) (gridX gridY : ℕ)
    (hx : 1 ≤ gridX) (hy : 1 ≤ gridY) :
    (buildVertices gridOpt gridX gridY).length = (gridX + 1) * (gridY + 1) ∧
    (buildBaseHeights gridOpt gridX gridY).length = (gridX + 1) * (gridY + 1) ∧
    (buildIndices gridX gridY).length = 4 * (gridX * gridY) := by
  refine ⟨?_, ?_, ?_⟩
  · have h1 : (buildVertices gridOpt gridX gridY).length = (gridY + 1) * (gridX + 1) := by
      rw [buildVertices]
      exact flatMapRange_length _ _ _ (fun i => by simp)
    rw [h1]; ring
  · have h1 : (buildBaseHeights gridOpt gridX gridY).length = (gridY + 1) * (gridX + 1) := by
      rw [buildBaseHeights]
      exact flatMapRange_length _ _ _ (fun i => by simp)
    rw [h1]; ring
  · have h1 : (buildIndices gridX gridY).length = gridY * (gridX * 4) := by
      rw [buildIndices]
      exact flatMapRange_length _ _ _
        (fun i => flatMapRange_length _ _ _ (fun j => rfl))
    rw [h1]; ring

/-- C3 witness: the counts at the concrete resolution `gridX = gridY = 2`. -/
theorem createSurface_counts_witness :
    (buildVertices none 2 2).length = (2 + 1) * (2 + 1) ∧
    (buildBaseHeights none 2 2).length = (2 + 1) * (2 + 1) ∧
    (buildIndices 2 2).length = 4 * (2 * 2) :=
  createSurface_counts none 2 2 (by decide) (by decide)

/-- C3 counterexample: at resolution `gridX = gridY = 1` the flat index
array has 4 entries, not `2*gx*gy = 2` as the claim states. -/
theorem createSurface_indices_counterexample :
    (buildIndices 1 1).length ≠ 2 * (1 * 1) := by decide

end VolatilitySurface

namespace Viz

/-- C9: each 2-d chart renderer renders exactly when the fetch returned
data: a failed fetch (`none`) produces no primitives at all (there is no
fallback dataset), and a successful fetch renders the parsed data. -/
theorem render_iff_fetch_ok :
    (∀ f, (kalmanInit f).isSome = f.isSome) ∧
    kalmanInit none = none ∧
    (∀ d, kalmanInit (some d) = some (kalmanRender d)) ∧
    (∀ f, (markovInit f).isSome = f.isSome) ∧
    markovInit none = none ∧
    (∀ d, markovInit (some d) = some (markovRender d)) := by
  refine ⟨fun f => ?_, rfl, fun d => rfl, fun f => ?_, rfl, fun d => rfl⟩ <;>
    cases f <;> rfl

/-- C10: every bar emitted by the Markov state-distribution bar chart has
non-negative width, height and y position, for every distribution input
(probabilities outside `[0,1]` included): all three are clamped with
`Math.max(0, ...)`. -/
theorem bars_nonneg (dist : List (String × ℚ)) (b : Bar) (hb : b ∈ bars dist) :
    0 ≤ b.w ∧ 0 ≤ b.h ∧ 0 ≤ b.y := by
  simp only [bars] at hb
  obtain ⟨p, hp, rfl⟩ := List.mem_map.mp hb
  exact ⟨le_max_left 0 _, le_max_left 0 _, le_max_left 0 _⟩

/-- A distribution with probabilities outside `[0,1]`, for the C10 witness. -/
def dist0 : List (String × ℚ) := [("Up", -2), ("Down", 2)]

lemma bars_dist0_ne : bars dist0 ≠ [] := by decide

/-- C10 witness: the first bar of the chart for `dist0` has non-negative
width, height and y position. -/
theorem bars_nonneg_witness :
    0 ≤ ((bars dist0).head bars_dist0_ne).w ∧
    0 ≤ ((bars dist0).head bars_dist0_ne).h ∧
    0 ≤ ((bars dist0).head bars_dist0_ne).y :=
  bars_nonneg dist0 _ (List.head_mem bars_dist0_ne)

end Viz

namespace Viz

lemma toFixed2_eval_70 : toFixed2 0.7 = "0.70" := by
  rw [toFixed2, show ⌊(0.7 : ℚ) * 100 + 1 / 2⌋ = 70 by norm_num]
  decide

lemma toFixed2_eval_30 : toFixed2 0.3 = "0.30" := by
  rw [toFixed2, show ⌊(0.3 : ℚ) * 100 + 1 / 2⌋ = 30 by norm_num]
  decide

lemma toFixed2_eval_40 : toFixed2 0.4 = "0.40" := by
  rw [toFixed2, show ⌊(0.4 : ℚ) * 100 + 1 / 2⌋ = 40 by norm_num]
  decide

lemma toFixed2_eval_60 : toFixed2 0.6 = "0.60" := by
  rw [toFixed2, show ⌊(0.6 : ℚ) * 100 + 1 / 2⌋ = 60 by norm_num]
  decide

/-- C7: on the transition matrix `[[0.7,0.3],[0.4,0.6]]` with states
`["Up","Down"]`, `MarkovViz.render` emits exactly 4 heatmap cell
rectangles, and each cell's text label is its matrix value formatted to
two decimal places. -/
theorem markov_heatmap_cells_2x2 :
    (markovRender ⟨[[0.7, 0.3], [0.4, 0.6]], ["Up", "Down"], []⟩).heatCells.length = 4 ∧
    (markovRender ⟨[[0.7, 0.3], [0.4, 0.6]], ["Up", "Down"], []⟩).heatCells.map
        HeatCell.label = ["0.70", "0.30", "0.40", "0.60"] := by
  constructor
  · decide
  · simp [markovRender, heatCells, List.enum, List.enumFrom,
      toFixed2_eval_70, toFixed2_eval_30, toFixed2_eval_40, toFixed2_eval_60]

end Viz

namespace VolatilitySurface

/-- The grid invariant the spec states: `nRows × nCols`, all rows of equal
length, at least 2 rows and 2 columns. -/
def WellFormed (grid : List (List ℚ)) (nRows nCols : ℕ) : Prop :=
  grid.length = nRows ∧ (∀ row ∈ grid, row.length = nCols) ∧ 2 ≤ nRows ∧ 2 ≤ nCols

instance (grid : List (List ℚ)) (nRows nCols : ℕ) :
    Decidable (WellFormed grid nRows nCols) := by
  unfold WellFormed
  exact inferInstance

lemma getCell_isSome (grid : List (List ℚ)) (nRows nCols : ℕ)
    (hlen : grid.length = nRows) (hrow : ∀ row ∈ grid, row.length = nCols)
    {y x : ℤ} (hy0 : 0 ≤ y) (hy1 : y < (nRows : ℤ)) (hx0 : 0 ≤ x)
    (hx1 : x < (nCols : ℤ)) :
    ∃ c, getCell grid y x = some c := by
  rw [getCell, if_pos ⟨hy0, hx0⟩]
  have hyn : y.toNat < grid.length := by rw [hlen]; omega
  rcases hrg : grid.get? y.toNat with _ | row
  · rw [List.get?_eq_none] at hrg; omega
  · have hrmem := List.get?_mem hrg
    have hxr : x.toNat < row.length := by rw [hrow row hrmem]; omega
    rcases hxg : row.get? x.toNat with _ | c
    · rw [List.get?_eq_none] at hxg; omega
    · exact ⟨c, by rw [Option.some_bind]; exact hxg⟩

lemma interpolateSigma_spec (grid : List (List ℚ)) (nRows nCols : ℕ) (u v : ℚ)
    (hlen : grid.length = nRows) (hrow : ∀ row ∈ grid, row.length = nCols)
    (hR : 2 ≤ nRows) (hC : 2 ≤ nCols)
    (hgx0 : 0 ≤ u * ((nCols : ℚ) - 1)) (hgx1 : u * ((nCols : ℚ) - 1) < (nCols : ℚ))
    (hgy0 : 0 ≤ v * ((nRows : ℚ) - 1)) (hgy1 : v * ((nRows : ℚ) - 1) < (nRows : ℚ)) :
    ∃ v00 v10 v01 v11,
      getCell grid ⌊v * ((nRows : ℚ) - 1)⌋ ⌊u * ((nCols : ℚ) - 1)⌋ = some v00 ∧
      getCell grid ⌊v * ((nRows : ℚ) - 1)⌋
        (min (⌊u * ((nCols : ℚ) - 1)⌋ + 1) ((nCols : ℤ) - 1)) = some v10 ∧
      getCell grid (min (⌊v * ((nRows : ℚ) - 1)⌋ + 1) ((nRows : ℤ) - 1))
        ⌊u * ((nCols : ℚ) - 1)⌋ = some v01 ∧
      getCell grid (min (⌊v * ((nRows : ℚ) - 1)⌋ + 1) ((nRows : ℤ) - 1))
        (min (⌊u * ((nCols : ℚ) - 1)⌋ + 1) ((nCols : ℤ) - 1)) = some v11 ∧
      interpolateSigma u v grid nRows nCols = some
        ((1 - Int.fract (u * ((nCols : ℚ) - 1))) * (1 - Int.fract (v * ((nRows : ℚ) - 1))) * v00 +
         Int.fract (u * ((nCols : ℚ) - 1)) * (1 - Int.fract (v * ((nRows : ℚ) - 1))) * v10 +
         (1 - Int.fract (u * ((nCols : ℚ) - 1))) * Int.fract (v * ((nRows : ℚ) - 1)) * v01 +
         Int.fract (u * ((nCols : ℚ) - 1)) * Int.fract (v * ((nRows : ℚ) - 1)) * v11) := by
  have hCz : (2 : ℤ) ≤ (nCols : ℤ) := by exact_mod_cast hC
  have hRz : (2 : ℤ) ≤ (nRows : ℤ) := by exact_mod_cast hR
  have hx0f : (0 : ℤ) ≤ ⌊u * ((nCols : ℚ) - 1)⌋ := Int.floor_nonneg.mpr hgx0
  have hx1f : ⌊u * ((nCols : ℚ) - 1)⌋ < (nCols : ℤ) := Int.floor_lt.mpr (by exact_mod_cast hgx1)
  have hy0f : (0 : ℤ) ≤ ⌊v * ((nRows : ℚ) - 1)⌋ := Int.floor_nonneg.mpr hgy0
  have hy1f : ⌊v * ((nRows : ℚ) - 1)⌋ < (nRows : ℤ) := Int.floor_lt.mpr (by exact_mod_cast hgy1)
  have hxm0 : (0 : ℤ) ≤ min (⌊u * ((nCols : ℚ) - 1)⌋ + 1) ((nCols : ℤ) - 1) :=
    le_min (by omega) (by omega)
  have hxm1 : min (⌊u * ((nCols : ℚ) - 1)⌋ + 1) ((nCols : ℤ) - 1) < (nCols : ℤ) :=
    lt_of_le_of_lt (min_le_right _ _) (by omega)
  have hym0 : (0 : ℤ) ≤ min (⌊v * ((nRows : ℚ) - 1)⌋ + 1) ((nRows : ℤ) - 1) :=
    le_min (by omega) (by omega)
  have hym1 : min (⌊v * ((nRows : ℚ) - 1)⌋ + 1) ((nRows : ℤ) - 1) < (nRows : ℤ) :=
    lt_of_le_of_lt (min_le_right _ _) (by omega)
  obtain ⟨v00, h00⟩ := getCell_isSome grid nRows nCols hlen hrow hy0f hy1f hx0f hx1f
  obtain ⟨v10, h10⟩ := getCell_isSome grid nRows nCols hlen hrow hy0f hy1f hxm0 hxm1
  obtain ⟨v01, h01⟩ := getCell_isSome grid nRows nCols hlen hrow hym0 hym1 hx0f hx1f
  obtain ⟨v11, h11⟩ := getCell_isSome grid nRows nCols hlen hrow hym0 hym1 hxm0 hxm1
  refine ⟨v00, v10, v01, v11, h00, h10, h01, h11, ?_⟩
  simp only [interpolateSigma, h00, h10, h01, h11]
  simp only [Int.fract]
  try congr 1
  try ring

lemma bilin_between (fx fy a b c d : ℚ) (hfx0 : 0 ≤ fx) (hfx1 : fx ≤ 1)
    (hfy0 : 0 ≤ fy) (hfy1 : fy ≤ 1) :
    min (min a b) (min c d) ≤
      (1 - fx) * (1 - fy) * a + fx * (1 - fy) * b + (1 - fx) * fy * c + fx * fy * d ∧
    (1 - fx) * (1 - fy) * a + fx * (1 - fy) * b + (1 - fx) * fy * c + fx * fy * d ≤
      max (max a b) (max c d) := by
  have hma : min (min a b) (min c d) ≤ a := le_trans (min_le_left _ _) (min_le_left _ _)
  have hmb : min (min a b) (min c d) ≤ b := le_trans (min_le_left _ _) (min_le_right _ _)
  have hmc : min (min a b) (min c d) ≤ c := le_trans (min_le_right _ _) (min_le_left _ _)
  have hmd : min (min a b) (min c d) ≤ d := le_trans (min_le_right _ _) (min_le_right _ _)
  have hMa : a ≤ max (max a b) (max c d) := le_trans (le_max_left _ _) (le_max_left _ _)
  have hMb : b ≤ max (max a b) (max c d) := le_trans (le_max_right _ _) (le_max_left _ _)
  have hMc : c ≤ max (max a b) (max c d) := le_trans (le_max_left _ _) (le_max_right _ _)
  have hMd : d ≤ max (max a b) (max c d) := le_trans (le_max_right _ _) (le_max_right _ _)
  constructor
  · nlinarith [mul_nonneg (mul_nonneg (by linarith : (0:ℚ) ≤ 1 - fx) (by linarith : (0:ℚ) ≤ 1 - fy)) (by linarith : (0:ℚ) ≤ a - min (min a b) (min c d)),
      mul_nonneg (mul_nonneg hfx0 (by linarith : (0:ℚ) ≤ 1 - fy)) (by linarith : (0:ℚ) ≤ b - min (min a b) (min c d)),
      mul_nonneg (mul_nonneg (by linarith : (0:ℚ) ≤ 1 - fx) hfy0) (by linarith : (0:ℚ) ≤ c - min (min a b) (min c d)),
      mul_nonneg (mul_nonneg hfx0 hfy0) (by linarith : (0:ℚ) ≤ d - min (min a b) (min c d))]
  · nlinarith [mul_nonneg (mul_nonneg (by linarith : (0:ℚ) ≤ 1 - fx) (by linarith : (0:ℚ) ≤ 1 - fy)) (by linarith : (0:ℚ) ≤ max (max a b) (max c d) - a),
      mul_nonneg (mul_nonneg hfx0 (by linarith : (0:ℚ) ≤ 1 - fy)) (by linarith : (0:ℚ) ≤ max (max a b) (max c d) - b),
      mul_nonneg (mul_nonneg (by linarith : (0:ℚ) ≤ 1 - fx) hfy0) (by linarith : (0:ℚ) ≤ max (max a b) (max c d) - c),
      mul_nonneg (mul_nonneg hfx0 hfy0) (by linarith : (0:ℚ) ≤ max (max a b) (max c d) - d)]

end VolatilitySurface

namespace VolatilitySurface

/-- The convexity property of one interpolation query: the call succeeds
and its value lies between the minimum and maximum of the four corner
cells the algorithm reads. -/
def ConvexAt (grid : List (List ℚ)) (nRows nCols : ℕ) (u v : ℚ) : Prop :=
  ∃ z v00 v10 v01 v11,
    interpolateSigma u v grid nRows nCols = some z ∧
    getCell grid ⌊v * ((nRows : ℚ) - 1)⌋ ⌊u * ((nCols : ℚ) - 1)⌋ = some v00 ∧
    getCell grid ⌊v * ((nRows : ℚ) - 1)⌋
      (min (⌊u * ((nCols : ℚ) - 1)⌋ + 1) ((nCols : ℤ) - 1)) = some v10 ∧
    getCell grid (min (⌊v * ((nRows : ℚ) - 1)⌋ + 1) ((nRows : ℤ) - 1))
      ⌊u * ((nCols : ℚ) - 1)⌋ = some v01 ∧
    getCell grid (min (⌊v * ((nRows : ℚ) - 1)⌋ + 1) ((nRows : ℤ) - 1))
      (min (⌊u * ((nCols : ℚ) - 1)⌋ + 1) ((nCols : ℤ) - 1)) = some v11 ∧
    min (min v00 v10) (min v01 v11) ≤ z ∧ z ≤ max (max v00 v10) (max v01 v11)

/-- C1: for every well-formed grid (≥ 2 rows and columns, equal-length
rows) and every `u, v ∈ [0,1]`, `interpolateSigma` returns a value lying
between the min and the max of the four surrounding corner grid values. -/
theorem interpolateSigma_convex (grid : List (List ℚ)) (nRows nCols : ℕ) (u v : ℚ)
    (hwf : WellFormed grid nRows nCols)
    (hu0 : 0 ≤ u) (hu1 : u ≤ 1) (hv0 : 0 ≤ v) (hv1 : v ≤ 1) :
    ConvexAt grid nRows nCols u v := by
  obtain ⟨hlen, hrow, hR, hC⟩ := hwf
  have hCq : (2 : ℚ) ≤ (nCols : ℚ) := by exact_mod_cast hC
  have hRq : (2 : ℚ) ≤ (nRows : ℚ) := by exact_mod_cast hR
  have hgx0 : 0 ≤ u * ((nCols : ℚ) - 1) := mul_nonneg hu0 (by linarith)
  have hgx1 : u * ((nCols : ℚ) - 1) < (nCols : ℚ) := by
    have h1 : u * ((nCols : ℚ) - 1) ≤ 1 * ((nCols : ℚ) - 1) :=
      mul_le_mul_of_nonneg_right hu1 (by linarith)
    nlinarith
  have hgy0 : 0 ≤ v * ((nRows : ℚ) - 1) := mul_nonneg hv0 (by linarith)
  have hgy1 : v * ((nRows : ℚ) - 1) < (nRows : ℚ) := by
    have h1 : v * ((nRows : ℚ) - 1) ≤ 1 * ((nRows : ℚ) - 1) :=
      mul_le_mul_of_nonneg_right hv1 (by linarith)
    nlinarith
  obtain ⟨v00, v10, v01, v11, h00, h10, h01, h11, heq⟩ :=
    interpolateSigma_spec grid nRows nCols u v hlen hrow hR hC hgx0 hgx1 hgy0 hgy1
  obtain ⟨hlo, hhi⟩ := bilin_between (Int.fract (u * ((nCols : ℚ) - 1)))
    (Int.fract (v * ((nRows : ℚ) - 1))) v00 v10 v01 v11
    (Int.fract_nonneg _) (le_of_lt (Int.fract_lt_one _))
    (Int.fract_nonneg _) (le_of_lt (Int.fract_lt_one _))
  exact ⟨_, v00, v10, v01, v11, heq, h00, h10, h01, h11, hlo, hhi⟩

/-- C1 witness: the convexity property at the concrete grid
`[[1,2],[3,4]]` and `u = 0`, `v = 1`. -/
theorem interpolateSigma_convex_witness : ConvexAt [[1, 2], [3, 4]] 2 2 0 1 :=
  interpolateSigma_convex [[1, 2], [3, 4]] 2 2 0 1 (by decide)
    (by decide) (by decide) (by decide) (by decide)

/-- C2: whenever `gx = u*(nCols-1)` and `gy = v*(nRows-1)` are exactly the
integers of a grid node, `interpolateSigma` returns exactly the stored
grid value `grid[gy][gx]`. -/
theorem interpolateSigma_at_node (grid : List (List ℚ)) (nRows nCols : ℕ) (u v : ℚ)
    (gxn gyn : ℕ) (hwf : WellFormed grid nRows nCols)
    (hgx : u * ((nCols : ℚ) - 1) = gxn) (hgy : v * ((nRows : ℚ) - 1) = gyn)
    (hgxlt : gxn < nCols) (hgylt : gyn < nRows) :
    (getCell grid (gyn : ℤ) (gxn : ℤ)).isSome ∧
    interpolateSigma u v grid nRows nCols = getCell grid (gyn : ℤ) (gxn : ℤ) := by
  obtain ⟨hlen, hrow, hR, hC⟩ := hwf
  have hgx0 : 0 ≤ u * ((nCols : ℚ) - 1) := by rw [hgx]; positivity
  have hgx1 : u * ((nCols : ℚ) - 1) < (nCols : ℚ) := by rw [hgx]; exact_mod_cast hgxlt
  have hgy0 : 0 ≤ v * ((nRows : ℚ) - 1) := by rw [hgy]; positivity
  have hgy1 : v * ((nRows : ℚ) - 1) < (nRows : ℚ) := by rw [hgy]; exact_mod_cast hgylt
  obtain ⟨v00, v10, v01, v11, h00, h10, h01, h11, heq⟩ :=
    interpolateSigma_spec grid nRows nCols u v hlen hrow hR hC hgx0 hgx1 hgy0 hgy1
  rw [hgx, hgy] at h00 heq
  simp only [Int.floor_natCast] at h00
  simp only [Int.fract_natCast] at heq
  have hz : (1 - 0) * (1 - 0) * v00 + 0 * (1 - 0) * v10 + (1 - 0) * 0 * v01 +
      0 * 0 * v11 = v00 := by ring
  rw [hz] at heq
  constructor
  · rw [h00]; rfl
  · rw [heq, h00]

/-- C2 witness: at `u = 1, v = 0` on `[[1,2],[3,4]]` (node `gx = 1`,
`gy = 0`) the interpolation returns the stored entry. -/
theorem interpolateSigma_at_node_witness :
    (getCell [[1, 2], [3, 4]] ((0 : ℕ) : ℤ) ((1 : ℕ) : ℤ)).isSome ∧
    interpolateSigma 1 0 [[1, 2], [3, 4]] 2 2 =
      getCell [[1, 2], [3, 4]] ((0 : ℕ) : ℤ) ((1 : ℕ) : ℤ) :=
  interpolateSigma_at_node [[1, 2], [3, 4]] 2 2 1 0 1 0 (by decide)
    (by norm_num) (by norm_num) (by decide) (by decide)

/-- C6 (amended): `interpolateSigma` cannot fail as long as the floor
indices stay inside the grid, i.e. whenever `0 ≤ u*(nCols-1) < nCols` and
`0 ≤ v*(nRows-1) < nRows` — a range that extends past `u = 1` (where the
`min`-clamping of the upper indices takes over and the query extrapolates
the clamped edge values) but not below `0`. -/
theorem interpolateSigma_total_on_clamped_range (grid : List (List ℚ))
    (nRows nCols : ℕ) (u v : ℚ) (hwf : WellFormed grid nRows nCols)
    (hgx0 : 0 ≤ u * ((nCols : ℚ) - 1)) (hgx1 : u * ((nCols : ℚ) - 1) < (nCols : ℚ))
    (hgy0 : 0 ≤ v * ((nRows : ℚ) - 1)) (hgy1 : v * ((nRows : ℚ) - 1) < (nRows : ℚ)) :
    (interpolateSigma u v grid nRows nCols).isSome := by
  obtain ⟨hlen, hrow, hR, hC⟩ := hwf
  obtain ⟨v00, v10, v01, v11, h00, h10, h01, h11, heq⟩ :=
    interpolateSigma_spec grid nRows nCols u v hlen hrow hR hC hgx0 hgx1 hgy0 hgy1
  rw [heq]; rfl

/-- C6 witness: `u = 11/10 > 1` and `v = 21/20 > 1` still succeed on a
2x2 grid (clamped-edge extrapolation past `u = v = 1`). -/
theorem interpolateSigma_total_witness :
    (interpolateSigma (11 / 10) (21 / 20) [[1, 2], [3, 4]] 2 2).isSome :=
  interpolateSigma_total_on_clamped_range [[1, 2], [3, 4]] 2 2 (11 / 10) (21 / 20)
    (by decide) (by norm_num) (by norm_num) (by norm_num) (by norm_num)

/-- C6 counterexample: with `u = v = -1` (outside `[0,1]`) on the 2x2 zero
grid the floor index is `-1`, the read `grid[-1]` is out of bounds, and
`interpolateSigma` fails (in the browser: `grid[-1][...]` throws) instead
of returning a finite scalar. -/
theorem interpolateSigma_out_of_range_fails :
    interpolateSigma (-1) (-1) [[0, 0], [0, 0]] 2 2 = none := by
  have hfl : ⌊(-1 : ℚ) * ((2 : ℚ) - 1)⌋ = -1 := by norm_num
  simp only [interpolateSigma, Nat.cast_ofNat, hfl, getCell]
  norm_num

end VolatilitySurface

namespace VolatilitySurface

lemma buildBaseHeights_get (gridOpt : Option (List (List ℚ))) (gridX gridY i j : ℕ)
    (hi : i ≤ gridY) (hj : j ≤ gridX) :
    (buildBaseHeights gridOpt gridX gridY).get? (i * (gridX + 1) + j) =
      some (heightAt gridOpt ((j : ℚ) / (gridX : ℚ)) ((i : ℚ) / (gridY : ℚ))) := by
  rw [buildBaseHeights]
  have h := flatMapRange_get
    (fun (i : ℕ) => (List.range (gridX + 1)).map fun (j : ℕ) =>
      heightAt gridOpt ((j : ℚ) / (gridX : ℚ)) ((i : ℚ) / (gridY : ℚ)))
    (gridY + 1) (gridX + 1) i j (fun k => by simp) (by omega) (by omega)
  rw [h, List.get?_map, List.get?_range (by omega)]
  rfl

/-- C4: the synthetic fallback height `(smile(u) + term(v)) * 2` is used
for a vertex exactly when the dataset fetch failed (`surfaceData = null`);
when a dataset grid is present every vertex height is
`interpolate(u, v, grid) * scaleZ` instead. -/
theorem height_source_iff_dataset (d : SurfaceData) (gridX gridY i j : ℕ)
    (hi : i ≤ gridY) (hj : j ≤ gridX) :
    (buildBaseHeights (gridOfFetch none) gridX gridY).get? (i * (gridX + 1) + j) =
      some (syntheticZ ((j : ℚ) / (gridX : ℚ)) ((i : ℚ) / (gridY : ℚ))) ∧
    (buildBaseHeights (gridOfFetch (some d)) gridX gridY).get? (i * (gridX + 1) + j) =
      some (interpolateSigmaD ((j : ℚ) / (gridX : ℚ)) ((i : ℚ) / (gridY : ℚ))
        d.grid d.grid.length (d.grid.headD []).length * scaleZ) := by
  constructor
  · rw [buildBaseHeights_get _ _ _ _ _ hi hj]; rfl
  · rw [buildBaseHeights_get _ _ _ _ _ hi hj]; rfl

/-- A concrete dataset for the C4 witness. -/
def d4 : SurfaceData := ⟨"US Health Volatility Surface", [[1, 2], [3, 4]]⟩

/-- C4 witness: both height sources at the concrete vertex
`i = j = 1` on a 1x1 render grid. -/
theorem height_source_iff_dataset_witness :
    (buildBaseHeights (gridOfFetch none) 1 1).get? (1 * (1 + 1) + 1) =
      some (syntheticZ (((1 : ℕ) : ℚ) / ((1 : ℕ) : ℚ)) (((1 : ℕ) : ℚ) / ((1 : ℕ) : ℚ))) ∧
    (buildBaseHeights (gridOfFetch (some d4)) 1 1).get? (1 * (1 + 1) + 1) =
      some (interpolateSigmaD (((1 : ℕ) : ℚ) / ((1 : ℕ) : ℚ)) (((1 : ℕ) : ℚ) / ((1 : ℕ) : ℚ))
        d4.grid d4.grid.length (d4.grid.headD []).length * scaleZ) :=
  height_source_iff_dataset d4 1 1 1 1 (by decide) (by decide)

end VolatilitySurface

namespace VolatilitySurface

lemma foldl_set_length {α : Type} (l : List α) (f : α → ℕ) (g : α → ℚ) (p : List ℚ) :
    (l.foldl (fun q b => q.set (f b) (g b)) p).length = p.length := by
  induction l generalizing p with
  | nil => rfl
  | cons a t ih => rw [List.foldl_cons, ih, List.length_set]

lemma foldl_set_get_ne {α : Type} (l : List α) (f : α → ℕ) (g : α → ℚ) (p : List ℚ)
    (k : ℕ) (h : ∀ a ∈ l, f a ≠ k) :
    (l.foldl (fun q b => q.set (f b) (g b)) p).get? k = p.get? k := by
  induction l generalizing p with
  | nil => rfl
  | cons a t ih =>
    rw [List.foldl_cons, ih _ fun b hb => h b (List.mem_cons_of_mem a hb),
      List.get?_set_ne _ _ (h a (List.mem_cons_self a t))]

lemma foldl_set_get_mem {α : Type} (l : List α) (f : α → ℕ) (g : α → ℚ) (k : ℕ) :
    ∀ (p : List ℚ) (a : α), a ∈ l → f a = k → (∀ b ∈ l, f b = k → g b = g a) →
      k < p.length →
      (l.foldl (fun q b => q.set (f b) (g b)) p).get? k = some (g a) := by
  induction l with
  | nil => intro p a ha _ _ _; cases ha
  | cons x t ih =>
    intro p a ha hf hg hk
    rw [List.foldl_cons]
    by_cases hmem : ∃ b ∈ t, f b = k
    · obtain ⟨b, hbt, hbk⟩ := hmem
      rw [ih (p.set (f x) (g x)) b hbt hbk
          (fun c hc hck => (hg c (List.mem_cons_of_mem x hc) hck).trans
            (hg b (List.mem_cons_of_mem x hbt) hbk).symm)
          (by rw [List.length_set]; exact hk)]
      rw [hg b (List.mem_cons_of_mem x hbt) hbk]
    · push_neg at hmem
      rw [foldl_set_get_ne t f g _ k hmem]
      rcases List.mem_cons.mp ha with rfl | hat
      · rw [hf, List.get?_set_eq, List.get?_eq_get hk]
        rfl
      · exact absurd hf (hmem a hat)

lemma foldl_flatMap {α β γ : Type} (L : List α) (f : α → List β) (step : γ → β → γ)
    (c : γ) :
    (L.flatMap f).foldl step c = L.foldl (fun c a => (f a).foldl step c) c := by
  induction L generalizing c with
  | nil => rfl
  | cons a t ih => rw [List.flatMap_cons, List.foldl_append, ih, List.foldl_cons]

/-- The traversal order of the two nested vertex loops. -/
def meshPairs (gridX gridY : ℕ) : List (ℕ × ℕ) :=
  (List.range (gridY + 1)).flatMap fun (i : ℕ) =>
    (List.range (gridX + 1)).map fun (j : ℕ) => (i, j)

lemma mem_meshPairs {gridX gridY : ℕ} {q : ℕ × ℕ} :
    q ∈ meshPairs gridX gridY ↔ q.1 ≤ gridY ∧ q.2 ≤ gridX := by
  cases q with
  | mk i j =>
    simp only [meshPairs, List.mem_flatMap, List.mem_map, List.mem_range,
      Nat.lt_succ_iff, Prod.mk.injEq]
    constructor
    · rintro ⟨a, ha, b, hb, rfl, rfl⟩
      exact ⟨ha, hb⟩
    · rintro ⟨hi, hj⟩
      exact ⟨i, hi, j, hj, rfl, rfl⟩

lemma idx_inj (gridX : ℕ) {i j i2 j2 : ℕ} (hj : j ≤ gridX) (hj2 : j2 ≤ gridX)
    (h : i2 * (gridX + 1) + j2 = i * (gridX + 1) + j) : i2 = i ∧ j2 = j := by
  have e1 : (i2 * (gridX + 1) + j2) / (gridX + 1) = i2 := by
    rw [Nat.add_comm, Nat.add_mul_div_right _ _ (Nat.succ_pos gridX),
      Nat.div_eq_of_lt (by omega)]
    omega
  have e2 : (i * (gridX + 1) + j) / (gridX + 1) = i := by
    rw [Nat.add_comm, Nat.add_mul_div_right _ _ (Nat.succ_pos gridX),
      Nat.div_eq_of_lt (by omega)]
    omega
  rw [h, e2] at e1
  subst e1
  omega

/-- The wave summand `sin(u·π·3 + t) · cos(v·π·2 + t·0.7) · waveAmplitude`
written per vertex index. -/
def waveVal (sinF cosF : ℚ → ℚ) (piQ : ℚ) (gridX gridY : ℕ) (t : ℚ) (i j : ℕ) : ℚ :=
  sinF ((j : ℚ) / (gridX : ℚ) * piQ * 3 + t) *
    cosF ((i : ℚ) / (gridY : ℚ) * piQ * 2 + t * 0.7) * waveAmplitude

lemma animate_positions (sinF cosF : ℚ → ℚ) (piQ : ℚ) (gridX gridY : ℕ)
    (s : SurfaceState) :
    (animate sinF cosF piQ gridX gridY s).positions =
      (meshPairs gridX gridY).foldl
        (fun q ij => q.set ((ij.1 * (gridX + 1) + ij.2) * 3 + 1)
          (s.baseHeights.getD (ij.1 * (gridX + 1) + ij.2) 0 +
            waveVal sinF cosF piQ gridX gridY (s.time + waveSpeed) ij.1 ij.2))
        s.positions := by
  simp only [animate, meshPairs, foldl_flatMap, List.foldl_map, waveVal]

end VolatilitySurface

namespace VolatilitySurface

lemma length_flatMap_triple (l : List (ℚ × ℚ × ℚ)) :
    (l.flatMap fun p => [p.1, p.2.1, p.2.2]).length = l.length * 3 := by
  induction l with
  | nil => rfl
  | cons a t ih => simp [List.flatMap_cons, ih, Nat.succ_mul]

lemma buildVertices_length (gridOpt : Option (List (List ℚ))) (gridX gridY : ℕ) :
    (buildVertices gridOpt gridX gridY).length = (gridY + 1) * (gridX + 1) := by
  rw [buildVertices]
  exact flatMapRange_length _ _ _ (fun i => by simp)

lemma createSurface_positions_length (gridOpt : Option (List (List ℚ)))
    (gridX gridY : ℕ) :
    (createSurface gridOpt gridX gridY).positions.length =
      ((gridY + 1) * (gridX + 1)) * 3 := by
  show (positionsOf (buildVertices gridOpt gridX gridY)).length = _
  rw [positionsOf, length_flatMap_triple, buildVertices_length]

lemma animate_step_spec (sinF cosF : ℚ → ℚ) (piQ : ℚ) (gridX gridY : ℕ)
    (s : SurfaceState) (hlen : s.positions.length = ((gridY + 1) * (gridX + 1)) * 3) :
    (animate sinF cosF piQ gridX gridY s).baseHeights = s.baseHeights ∧
    (animate sinF cosF piQ gridX gridY s).time = s.time + waveSpeed ∧
    (animate sinF cosF piQ gridX gridY s).positions.length = s.positions.length ∧
    (∀ k, k % 3 ≠ 1 →
      (animate sinF cosF piQ gridX gridY s).positions.get? k = s.positions.get? k) ∧
    ∀ i j, i ≤ gridY → j ≤ gridX →
      (animate sinF cosF piQ gridX gridY s).positions.get? ((i * (gridX + 1) + j) * 3 + 1) =
        some (s.baseHeights.getD (i * (gridX + 1) + j) 0 +
          waveVal sinF cosF piQ gridX gridY (s.time + waveSpeed) i j) := by
  refine ⟨rfl, rfl, ?_, ?_, ?_⟩
  · rw [animate_positions]
    exact foldl_set_length _ _ _ _
  · intro k hk
    rw [animate_positions]
    exact foldl_set_get_ne _ _ _ _ k (fun ij _ => by omega)
  · intro i j hi hj
    rw [animate_positions]
    have hidx : i * (gridX + 1) + j < (gridY + 1) * (gridX + 1) := by
      calc i * (gridX + 1) + j < i * (gridX + 1) + (gridX + 1) := by omega
        _ = (i + 1) * (gridX + 1) := by ring
        _ ≤ (gridY + 1) * (gridX + 1) := Nat.mul_le_mul_right _ (by omega)
    refine foldl_set_get_mem _ _ _ _ s.positions (i, j)
      (mem_meshPairs.mpr ⟨hi, hj⟩) rfl ?_ (by omega)
    intro b hb hbk
    obtain ⟨hb1, hb2⟩ := mem_meshPairs.mp hb
    have hidxeq : b.1 * (gridX + 1) + b.2 = i * (gridX + 1) + j := by omega
    obtain ⟨hbi, hbj⟩ := idx_inj gridX hj hb2 hidxeq
    rw [hbi, hbj]

lemma animate_iterate_invariant (sinF cosF : ℚ → ℚ) (piQ : ℚ)
    (gridOpt : Option (List (List ℚ))) (gridX gridY N : ℕ) :
    ((animate sinF cosF piQ gridX gridY)^[N] (createSurface gridOpt gridX gridY)).baseHeights =
      (createSurface gridOpt gridX gridY).baseHeights ∧
    ((animate sinF cosF piQ gridX gridY)^[N] (createSurface gridOpt gridX gridY)).time =
      (N : ℚ) * waveSpeed ∧
    ((animate sinF cosF piQ gridX gridY)^[N] (createSurface gridOpt gridX gridY)).positions.length =
      ((gridY + 1) * (gridX + 1)) * 3 ∧
    ∀ k, k % 3 ≠ 1 →
      ((animate sinF cosF piQ gridX gridY)^[N] (createSurface gridOpt gridX gridY)).positions.get? k =
        (createSurface gridOpt gridX gridY).positions.get? k := by
  induction N with
  | zero =>
    refine ⟨rfl, ?_, createSurface_positions_length gridOpt gridX gridY, fun k _ => rfl⟩
    show (0 : ℚ) = (0 : ℚ) * waveSpeed
    ring
  | succ n ih =>
    obtain ⟨ihb, iht, ihl, ihne⟩ := ih
    rw [Function.iterate_succ_apply']
    obtain ⟨hb, ht, hl, hne, _⟩ := animate_step_spec sinF cosF piQ gridX gridY _ ihl
    refine ⟨?_, ?_, ?_, ?_⟩
    · rw [hb, ihb]
    · rw [ht, iht]; push_cast; ring
    · rw [hl, ihl]
    · intro k hk
      rw [hne k hk, ihne k hk]

/-- C5: running `animate` any number `N ≥ 1` of frames never changes any
entry of `baseHeights` (bit-for-bit equal to the mesh-build-time array),
each frame writes only the displayed vertex heights (every position slot
that is not a vertex height is untouched), and the height written for
vertex `(i, j)` equals
`BaseHeight + sin(u·π·3 + time)·cos(v·π·2 + time·0.7)·amplitude` at the
current time `N · waveSpeed` — for every abstraction `sinF, cosF, piQ` of
the float transcendentals. -/
theorem animate_preserves_baseHeights (sinF cosF : ℚ → ℚ) (piQ : ℚ)
    (gridOpt : Option (List (List ℚ))) (gridX gridY N i j : ℕ)
    (hi : i ≤ gridY) (hj : j ≤ gridX) (hN : 1 ≤ N) :
    ((animate sinF cosF piQ gridX gridY)^[N] (createSurface gridOpt gridX gridY)).baseHeights =
      (createSurface gridOpt gridX gridY).baseHeights ∧
    (∀ k, k % 3 ≠ 1 →
      ((animate sinF cosF piQ gridX gridY)^[N] (createSurface gridOpt gridX gridY)).positions.get? k =
        (createSurface gridOpt gridX gridY).positions.get? k) ∧
    ((animate sinF cosF piQ gridX gridY)^[N] (createSurface gridOpt gridX gridY)).positions.get?
        ((i * (gridX + 1) + j) * 3 + 1) =
      some ((createSurface gridOpt gridX gridY).baseHeights.getD (i * (gridX + 1) + j) 0 +
        sinF ((j : ℚ) / (gridX : ℚ) * piQ * 3 + (N : ℚ) * waveSpeed) *
          cosF ((i : ℚ) / (gridY : ℚ) * piQ * 2 + ((N : ℚ) * waveSpeed) * 0.7) *
          waveAmplitude) := by
  obtain ⟨n, rfl⟩ := Nat.exists_eq_add_of_le hN
  rw [Nat.add_comm 1 n]
  obtain ⟨ihb, iht, ihl, ihne⟩ :=
    animate_iterate_invariant sinF cosF piQ gridOpt gridX gridY n
  rw [Function.iterate_succ_apply']
  obtain ⟨hb, ht, hl, hne, hslot⟩ := animate_step_spec sinF cosF piQ gridX gridY _ ihl
  have htN : ((animate sinF cosF piQ gridX gridY)^[n]
      (createSurface gridOpt gridX gridY)).time + waveSpeed =
      ((n + 1 : ℕ) : ℚ) * waveSpeed := by
    rw [iht]; push_cast; ring
  refine ⟨?_, ?_, ?_⟩
  · rw [hb, ihb]
  · intro k hk
    rw [hne k hk, ihne k hk]
  · rw [hslot i j hi hj, ihb, waveVal, htN]

/-- C5 witness: after `N = 2` frames on a 1x1 render grid without a
dataset (with `sinF = cosF = id` and `piQ = 3`), the base heights and the
untouched slots are unchanged and the vertex height at `i = j = 1` carries
the wave summand. -/
theorem animate_preserves_baseHeights_witness :
    ((animate (fun q => q) (fun q => q) 3 1 1)^[2] (createSurface none 1 1)).baseHeights =
      (createSurface none 1 1).baseHeights ∧
    (∀ k, k % 3 ≠ 1 →
      ((animate (fun q => q) (fun q => q) 3 1 1)^[2] (createSurface none 1 1)).positions.get? k =
        (createSurface none 1 1).positions.get? k) ∧
    ((animate (fun q => q) (fun q => q) 3 1 1)^[2] (createSurface none 1 1)).positions.get?
        ((1 * (1 + 1) + 1) * 3 + 1) =
      some ((createSurface none 1 1).baseHeights.getD (1 * (1 + 1) + 1) 0 +
        (((1 : ℕ) : ℚ) / ((1 : ℕ) : ℚ) * 3 * 3 + ((2 : ℕ) : ℚ) * waveSpeed) *
          (((1 : ℕ) : ℚ) / ((1 : ℕ) : ℚ) * 3 * 2 + (((2 : ℕ) : ℚ) * waveSpeed) * 0.7) *
          waveAmplitude) :=
  animate_preserves_baseHeights (fun q => q) (fun q => q) 3 none 1 1 2 1 1
    (by decide) (by decide) (by decide)

end VolatilitySurface

namespace D3

lemma basis_sub_form (t v0 v1 v2 v3 : ℚ) :
    basis t v0 v1 v2 v3 = v3 +
      ((1 - t) ^ 3 * (v0 - v1) + (5 - 3 * t - 3 * t ^ 2 + 2 * t ^ 3) * (v1 - v2) +
        (6 - t ^ 3) * (v2 - v3)) / 6 := by
  simp only [basis]
  ring

lemma basis_zero (v0 v1 v2 v3 : ℚ) : basis 0 v0 v1 v2 v3 = (v0 + 4 * v1 + v2) / 6 := by
  simp only [basis]
  ring

lemma basis_one (v0 v1 v2 v3 : ℚ) : basis 1 v0 v1 v2 v3 = (v1 + 4 * v2 + v3) / 6 := by
  simp only [basis]
  ring

lemma basis_antitone (v0 v1 v2 v3 s1 s2 : ℚ) (h10 : v1 ≤ v0) (h21 : v2 ≤ v1)
    (h32 : v3 ≤ v2) (hs0 : 0 ≤ s1) (hs : s1 ≤ s2) (hs1 : s2 ≤ 1) :
    basis s2 v0 v1 v2 v3 ≤ basis s1 v0 v1 v2 v3 := by
  rw [basis_sub_form, basis_sub_form]
  have c1 : (1 - s2) ^ 3 ≤ (1 - s1) ^ 3 :=
    pow_le_pow_left₀ (by linarith) (by linarith) 3
  have hinner : 0 ≤ 3 + 3 * (s1 + s2) - 2 * (s1 ^ 2 + s1 * s2 + s2 ^ 2) := by
    nlinarith [mul_nonneg hs0 (by linarith : (0:ℚ) ≤ 1 - s1),
      mul_nonneg (le_trans hs0 hs) (by linarith : (0:ℚ) ≤ 1 - s2),
      mul_nonneg (le_trans hs0 hs) (by linarith : (0:ℚ) ≤ 1 - s1)]
  have c2 : 5 - 3 * s2 - 3 * s2 ^ 2 + 2 * s2 ^ 3 ≤ 5 - 3 * s1 - 3 * s1 ^ 2 + 2 * s1 ^ 3 := by
    nlinarith [mul_nonneg (sub_nonneg.mpr hs) hinner]
  have c3 : s1 ^ 3 ≤ s2 ^ 3 := pow_le_pow_left₀ hs0 hs 3
  have d1 : (0 : ℚ) ≤ v0 - v1 := by linarith
  have d2 : (0 : ℚ) ≤ v1 - v2 := by linarith
  have d3 : (0 : ℚ) ≤ v2 - v3 := by linarith
  have m1 := mul_le_mul_of_nonneg_right c1 d1
  have m2 := mul_le_mul_of_nonneg_right c2 d2
  have m3 : (6 - s2 ^ 3) * (v2 - v3) ≤ (6 - s1 ^ 3) * (v2 - v3) :=
    mul_le_mul_of_nonneg_right (by linarith) d3
  linarith

lemma ctrls_dec (c : List ℚ) (h9 : c.length = 9)
    (hdec : ∀ k, k < 8 → c.getD (k + 1) 0 ≤ c.getD k 0) (i : ℕ) (hi : i ≤ 7) :
    (ctrls c i).2.1 ≤ (ctrls c i).1 ∧ (ctrls c i).2.2.1 ≤ (ctrls c i).2.1 ∧
    (ctrls c i).2.2.2 ≤ (ctrls c i).2.2.1 := by
  have hn : c.length - 1 = 8 := by omega
  dsimp only [ctrls]
  simp only [hn]
  refine ⟨?_, ?_, ?_⟩
  · rcases Nat.eq_zero_or_pos i with rfl | hpos
    · rw [if_neg (lt_irrefl 0)]
      have := hdec 0 (by omega)
      linarith
    · rw [if_pos hpos]
      have h := hdec (i - 1) (by omega)
      have hii : i - 1 + 1 = i := by omega
      rw [hii] at h
      exact h
  · rw [if_pos (by omega : i < 8)]
    exact hdec i (by omega)
  · by_cases h7 : i + 1 < 8
    · rw [if_pos h7, if_pos (by omega : i < 8)]
      exact hdec (i + 1) (by omega)
    · have hi7 : i = 7 := by omega
      subst hi7
      rw [if_neg h7, if_pos (by omega : (7 : ℕ) < 8)]
      have := hdec 7 (by omega)
      linarith

lemma seg_antitone (c : List ℚ) (h9 : c.length = 9)
    (hdec : ∀ k, k < 8 → c.getD (k + 1) 0 ≤ c.getD k 0) (i : ℕ) (hi : i ≤ 7)
    (s1 s2 : ℚ) (hs0 : 0 ≤ s1) (hs : s1 ≤ s2) (hs1 : s2 ≤ 1) :
    seg c i s2 ≤ seg c i s1 := by
  obtain ⟨d1, d2, d3⟩ := ctrls_dec c h9 hdec i hi
  exact basis_antitone _ _ _ _ _ _ d1 d2 d3 hs0 hs hs1

lemma seg_boundary (c : List ℚ) (h9 : c.length = 9) (i : ℕ) (hi : i < 7) :
    seg c i 1 = seg c (i + 1) 0 := by
  have hn : c.length - 1 = 8 := by omega
  rw [seg, seg, basis_one, basis_zero]
  have e2 : (ctrls c i).2.1 = c.getD i 0 := by dsimp only [ctrls]
  have e3 : (ctrls c i).2.2.1 = c.getD (i + 1) 0 := by
    dsimp only [ctrls]; simp only [hn]; rw [if_pos (by omega : i < 8)]
  have e4 : (ctrls c i).2.2.2 = c.getD (i + 2) 0 := by
    dsimp only [ctrls]; simp only [hn]; rw [if_pos (by omega : i + 1 < 8)]
  have f1 : (ctrls c (i + 1)).1 = c.getD i 0 := by
    dsimp only [ctrls]; rw [if_pos (by omega : 0 < i + 1), Nat.add_sub_cancel]
  have f2 : (ctrls c (i + 1)).2.1 = c.getD (i + 1) 0 := by dsimp only [ctrls]
  have f3 : (ctrls c (i + 1)).2.2.1 = c.getD (i + 2) 0 := by
    dsimp only [ctrls]; simp only [hn]; rw [if_pos (by omega : i + 1 < 8)]
  rw [e2, e3, e4, f1, f2, f3]

lemma seg_zero_antitone (c : List ℚ) (h9 : c.length = 9)
    (hdec : ∀ k, k < 8 → c.getD (k + 1) 0 ≤ c.getD k 0) :
    ∀ j i, i ≤ j → j ≤ 7 → seg c j 0 ≤ seg c i 0 := by
  intro j
  induction j with
  | zero =>
    intro i hij _
    have h0 : i = 0 := Nat.le_zero.mp hij
    rw [h0]
  | succ n ih =>
    intro i hij hj
    rcases eq_or_lt_of_le hij with rfl | hlt
    · exact le_refl _
    · have hi_n : i ≤ n := by omega
      calc seg c (n + 1) 0 = seg c n 1 := (seg_boundary c h9 n (by omega)).symm
        _ ≤ seg c n 0 := seg_antitone c h9 hdec n (by omega) 0 1 le_rfl zero_le_one le_rfl
        _ ≤ seg c i 0 := ih i hi_n (by omega)

end D3

namespace D3

lemma iOf_le_seven (t : ℚ) : iOf 8 t ≤ 7 := by
  unfold iOf
  by_cases ha : t ≤ 0
  · rw [if_pos ha]; omega
  · rw [if_neg ha]
    by_cases hb : 1 ≤ t
    · rw [if_pos hb]
    · rw [if_neg hb]
      have hlt : ⌊t * ((8 : ℕ) : ℚ)⌋ < 8 := by
        rw [Int.floor_lt]
        push_cast
        nlinarith [not_le.mp hb]
      omega

lemma iOf_mono (t1 t2 : ℚ) (h0 : 0 ≤ t1) (h12 : t1 ≤ t2) :
    iOf 8 t1 ≤ iOf 8 t2 := by
  unfold iOf
  by_cases ha : t1 ≤ 0
  · rw [if_pos ha]; omega
  · rw [if_neg ha]
    have hb2 : ¬t2 ≤ 0 := by linarith [not_le.mp ha]
    rw [if_neg hb2]
    by_cases hc : 1 ≤ t1
    · rw [if_pos hc, if_pos (by linarith)]
    · rw [if_neg hc]
      by_cases hd : 1 ≤ t2
      · rw [if_pos hd]
        have hlt : ⌊t1 * ((8 : ℕ) : ℚ)⌋ < 8 := by
          rw [Int.floor_lt]
          push_cast
          nlinarith [not_le.mp hc]
        omega
      · rw [if_neg hd]
        have hm : ⌊t1 * ((8 : ℕ) : ℚ)⌋ ≤ ⌊t2 * ((8 : ℕ) : ℚ)⌋ :=
          Int.floor_le_floor (by push_cast; nlinarith)
        have hnn : 0 ≤ ⌊t1 * ((8 : ℕ) : ℚ)⌋ :=
          Int.floor_nonneg.mpr (by push_cast; nlinarith)
        omega

lemma tcOf_mono {t1 t2 : ℚ} (h : t1 ≤ t2) : tcOf t1 ≤ tcOf t2 := by
  unfold tcOf
  split_ifs <;> linarith

lemma sOf_bounds (t : ℚ) (h0 : 0 ≤ t) (h1 : t ≤ 1) :
    0 ≤ (tcOf t - ((iOf 8 t : ℕ) : ℚ) / ((8 : ℕ) : ℚ)) * ((8 : ℕ) : ℚ) ∧
    (tcOf t - ((iOf 8 t : ℕ) : ℚ) / ((8 : ℕ) : ℚ)) * ((8 : ℕ) : ℚ) ≤ 1 := by
  unfold iOf tcOf
  by_cases ha : t ≤ 0
  · rw [if_pos ha, if_pos ha]
    norm_num
  · rw [if_neg ha, if_neg ha]
    by_cases hb : 1 ≤ t
    · rw [if_pos hb, if_pos hb]
      norm_num
    · rw [if_neg hb, if_neg hb]
      have hpos : 0 < t := not_le.mp ha
      have hlt : t < 1 := not_le.mp hb
      have hf0 : 0 ≤ ⌊t * ((8 : ℕ) : ℚ)⌋ :=
        Int.floor_nonneg.mpr (by push_cast; nlinarith)
      have hcast : ((⌊t * ((8 : ℕ) : ℚ)⌋.toNat : ℕ) : ℚ) = ((⌊t * ((8 : ℕ) : ℚ)⌋ : ℤ) : ℚ) := by
        exact_mod_cast congrArg (fun z : ℤ => (z : ℚ)) (Int.toNat_of_nonneg hf0)
      rw [hcast]
      have hle := Int.floor_le (t * ((8 : ℕ) : ℚ))
      have hup := Int.lt_floor_add_one (t * ((8 : ℕ) : ℚ))
      constructor
      · push_cast at hle ⊢
        nlinarith
      · push_cast at hup ⊢
        nlinarith

lemma bspline_eval (c : List ℚ) (h9 : c.length = 9) (t : ℚ) :
    bspline c t =
      seg c (iOf 8 t) ((tcOf t - ((iOf 8 t : ℕ) : ℚ) / ((8 : ℕ) : ℚ)) * ((8 : ℕ) : ℚ)) := by
  have hn : c.length - 1 = 8 := by omega
  simp only [bspline, hn]

lemma bspline_antitone (c : List ℚ) (h9 : c.length = 9)
    (hdec : ∀ k, k < 8 → c.getD (k + 1) 0 ≤ c.getD k 0)
    (t1 t2 : ℚ) (h0 : 0 ≤ t1) (h12 : t1 ≤ t2) (h21 : t2 ≤ 1) :
    bspline c t2 ≤ bspline c t1 := by
  rw [bspline_eval c h9 t1, bspline_eval c h9 t2]
  obtain ⟨hs10, hs11⟩ := sOf_bounds t1 h0 (le_trans h12 h21)
  obtain ⟨hs20, hs21⟩ := sOf_bounds t2 (le_trans h0 h12) h21
  have hi1 := iOf_le_seven t1
  have hi2 := iOf_le_seven t2
  have hmono := iOf_mono t1 t2 h0 h12
  rcases Nat.lt_or_ge (iOf 8 t1) (iOf 8 t2) with hlt | hge
  · calc seg c (iOf 8 t2) ((tcOf t2 - ((iOf 8 t2 : ℕ) : ℚ) / ((8 : ℕ) : ℚ)) * ((8 : ℕ) : ℚ))
        ≤ seg c (iOf 8 t2) 0 :=
          seg_antitone c h9 hdec _ hi2 0 _ le_rfl hs20 hs21
      _ ≤ seg c (iOf 8 t1 + 1) 0 :=
          seg_zero_antitone c h9 hdec (iOf 8 t2) (iOf 8 t1 + 1) (by omega) hi2
      _ = seg c (iOf 8 t1) 1 := (seg_boundary c h9 (iOf 8 t1) (by omega)).symm
      _ ≤ seg c (iOf 8 t1) ((tcOf t1 - ((iOf 8 t1 : ℕ) : ℚ) / ((8 : ℕ) : ℚ)) * ((8 : ℕ) : ℚ)) :=
          seg_antitone c h9 hdec _ hi1 _ 1 hs10 hs11 le_rfl
  · have heq : iOf 8 t1 = iOf 8 t2 := le_antisymm hmono hge
    rw [heq] at hs10 hs11 ⊢
    refine seg_antitone c h9 hdec _ hi2 _ _ hs10 ?_ hs21
    have hct := tcOf_mono h12
    have h8 : (0 : ℚ) ≤ ((8 : ℕ) : ℚ) := by norm_num
    nlinarith

lemma channel_antitone (cv : List ℚ) (h9 : cv.length = 9)
    (hdec : ∀ k, k < 8 → cv.getD (k + 1) 0 ≤ cv.getD k 0)
    (t1 t2 : ℚ) (h0 : 0 ≤ t1) (h12 : t1 ≤ t2) (h21 : t2 ≤ 1) :
    channel cv t2 ≤ channel cv t1 := by
  unfold channel jsRound
  have hb := bspline_antitone cv h9 hdec t1 t2 h0 h12 h21
  have hfl : ⌊bspline cv t2 + 1 / 2⌋ ≤ ⌊bspline cv t1 + 1 / 2⌋ :=
    Int.floor_le_floor (by linarith)
  exact max_le_max le_rfl (min_le_min le_rfl hfl)

end D3

namespace Viz

/-- Colour intensity of a heatmap fill: total darkness
`3·255 - (r + g + b)` of the emitted rgb triple (the sequential Reds ramp
darkens as its argument grows). -/
def intensity (p : ℚ) : ℤ :=
  3 * 255 - ((colorScale p).1 + (colorScale p).2.1 + (colorScale p).2.2)

/-- C8: the fill colour `colorScale(p) = d3.interpolateReds(p)` of a
Markov heatmap cell is monotone in its transition probability: for
`0 ≤ p1 < p2 ≤ 1`, every rgb channel of `p2` is at most that of `p1`, so
the rendered colour intensity of `p1` is at most that of `p2`. -/
theorem heatmap_intensity_monotone (p1 p2 : ℚ) (h0 : 0 ≤ p1) (h12 : p1 < p2)
    (h21 : p2 ≤ 1) : intensity p1 ≤ intensity p2 := by
  unfold intensity colorScale D3.interpolateReds
  have harg : ∀ p : ℚ, (p - 0) / (1 - 0) = p := fun p => by ring
  rw [harg, harg]
  have hR := D3.channel_antitone D3.redsR (by decide) (by decide)
    p1 p2 h0 (le_of_lt h12) h21
  have hG := D3.channel_antitone D3.redsG (by decide) (by decide)
    p1 p2 h0 (le_of_lt h12) h21
  have hB := D3.channel_antitone D3.redsB (by decide) (by decide)
    p1 p2 h0 (le_of_lt h12) h21
  dsimp only
  omega

/-- C8 witness: the intensity inequality at the endpoints `p1 = 0`,
`p2 = 1`. -/
theorem heatmap_intensity_monotone_witness :
    intensity 0 ≤ intensity 1 :=
  heatmap_intensity_monotone 0 1 (by decide) (by decide) (by decide)

end Viz
